import Mathlib

/-!
Verification of the smart_renamer engine (`src/smart_renamer/renamer.py`,
with `src/smart_renamer/cli.py` as a caller) against its natural-language
specification.

The filesystem is modelled as the contents of one working directory: a list
of named entries, each either a regular file or a directory.  All paths the
engine manipulates live in that directory (`renamed_mapper` builds its
targets as `directory / new_name`, `undo` builds its paths as
`directory / entry[...]`).  The regex-search-plus-format step of
`renamed_mapper` is kept parametric as a function `tf : String → Option
String` (`none` covers both of its skip branches: no regex match, and a
format placeholder error), since the claims under study do not depend on the
internals of the regex engine, only on how its output is used.
-/

/-- Entry of the working directory: a name together with whether the entry
is a directory (`Path.is_dir`) or a regular file. -/
structure FSEntry where
  name : String
  isDir : Bool
deriving DecidableEq, Repr

/-- Contents of the working directory. -/
abbrev FS := List FSEntry

/-- Embeds `Path.exists()` for a path `directory / n`: some entry of the
working directory has name `n`. -/
def fsExists (fs : FS) (n : String) : Bool :=
  fs.any (fun e => e.name == n)

/-- Whether the entry named `n` is a directory. -/
def fsIsDir (fs : FS) (n : String) : Bool :=
  fs.any (fun e => e.name == n && e.isDir)

/-- Embeds the effect of `os`-level `Path.rename` on the directory contents:
the entry named `old` is removed and re-added under the name `new`; an entry
already named `new` is overwritten (POSIX rename clobbers).  Callers guard
the call, so the `none` branch (missing source, where Python raises) is
never taken by a guarded caller. -/
def fsRename (fs : FS) (old new : String) : FS :=
  match fs.find? (fun e => e.name == old) with
  | none => fs
  | some e =>
      (fs.filter (fun x => x.name != old && x.name != new)) ++ [{ e with name := new }]

/-- Embeds `open(directory / name, "w")` creating (or truncating) a regular
file named `name` in the working directory. -/
def fsWriteFile (fs : FS) (n : String) : FS :=
  (fs.filter (fun e => e.name != n)) ++ [⟨n, false⟩]

/-- Path inside some directory: `dir / base`, as built by
`directory / new_name` in `renamed_mapper` and `directory / Path(entry[...])`
in `undo`. -/
structure RPath where
  dir : String
  base : String
deriving DecidableEq, Repr

/-- One journaled operation, as built at `renamer.py:61`:
`{"from": old_path.name, "to": new_path.name}` — names, not full paths. -/
structure LogEntry where
  fromName : String
  toName : String
deriving DecidableEq, Repr

/-- Parsed content of one log file, as written by `crate_log`
(`renamer.py:98-105`): timestamp, the three patterns, the directory the
batch ran in, and the applied operations. -/
structure Session where
  timestamp : String
  matchPat : String
  regexPat : String
  renamePat : String
  directory : String
  operations : List LogEntry
deriving DecidableEq, Repr

/-- Embeds `sorted(directory.glob(match_pattern))` (`renamer.py:176`): every
entry of the directory whose name matches the glob selector, sorted by name.
`Path.glob` does not filter by entry kind, so the kind is ignored here, as
in the source. -/
def matched_files (fs : FS) (sel : String → Bool) : List String :=
  (((fs.filter (fun e => sel e.name)).map FSEntry.name).mergeSort (fun a b => a ≤ b))

/-- Embeds `renamed_mapper` (`renamer.py:66-92`).  `tf old` is
`regex.search(old)` followed by `rename_pattern.format(...)`; its two skip
branches (`not match`, and `IndexError`/`KeyError` from `format`) are both
`none`.  A candidate whose target name already exists in the directory is
skipped; otherwise the pair `(directory / old, directory / new_name)` is
appended to the map.  Note the existence check is against the directory
contents at plan time only. -/
def renamed_mapper (d : String) (fs : FS) (tf : String → Option String) :
    List String → List (RPath × RPath)
  | [] => []
  | old :: rest =>
    match tf old with
    | none => renamed_mapper d fs tf rest
    | some newName =>
      if fsExists fs newName then
        renamed_mapper d fs tf rest
      else
        (⟨d, old⟩, ⟨d, newName⟩) :: renamed_mapper d fs tf rest

/-- Embeds `rename` (`renamer.py:56-63`).  The loop body
`old_path.rename(new_path)` has no `try`/`except`: an `OSError` propagates
immediately, the log-entry list built so far is lost, and entries after the
failing one are never attempted.  The modelled failure is the missing
source (`FileNotFoundError`), representative of the per-entry failures the
spec lists.  Result: final directory contents, plus `some entries` when the
whole loop completed, `none` when an exception escaped. -/
def rename (fs : FS) : List (RPath × RPath) → FS × Option (List LogEntry)
  | [] => (fs, some [])
  | (old, new) :: rest =>
    if fsExists fs old.base then
      match rename (fsRename fs old.base new.base) rest with
      | (fs', some entries) => (fs', some (⟨old.base, new.base⟩ :: entries))
      | (fs', none) => (fs', none)
    else
      (fs, none)

/-- Embeds the directory-contents effect of `crate_log`
(`renamer.py:95-111`): one fresh JSON log file, named from the current
timestamp, is written into the working directory.  No existing log file is
read, trimmed or removed. -/
def crate_log (fs : FS) (logName : String) : FS :=
  fsWriteFile fs logName

/-- Report line printed by `undo` for one operation. -/
inductive UndoEvent where
  | missing (src : String)
  | conflict (dest : String)
  | renamed (src dest : String)
deriving DecidableEq, Repr

/-- Embeds `undo` (`renamer.py:114-130`).  The operations are iterated in
the order stored in the log (`for entry in operations`); for each, `src =
directory / entry["to"]` and `dest = directory / entry["from"]` (the
recorded rename is reversed by swapping the roles).  A missing `src` or an
already-existing `dest` skips the entry and continues with the rest; the
guarded rename itself cannot fail in the model (the source `try`/`except`
also continues on failure).  Returns the final directory contents and the
per-entry report. -/
def undo (fs : FS) : List LogEntry → FS × List UndoEvent
  | [] => (fs, [])
  | e :: rest =>
    if fsExists fs e.toName = false then
      let r := undo fs rest
      (r.1, UndoEvent.missing e.toName :: r.2)
    else if fsExists fs e.fromName then
      let r := undo fs rest
      (r.1, UndoEvent.conflict e.fromName :: r.2)
    else
      let r := undo (fsRename fs e.toName e.fromName) rest
      (r.1, UndoEvent.renamed e.toName e.fromName :: r.2)

/-- Path pairs `(src, dest)` that `undo` resolves for a directory argument
(`renamer.py:117-118`): `src = directory / entry["to"]`,
`dest = directory / entry["from"]`. -/
def undoPlanPaths (directory : String) (ops : List LogEntry) : List (RPath × RPath) :=
  ops.map (fun e => (⟨directory, e.toName⟩, ⟨directory, e.fromName⟩))

/-- Embeds the path resolution performed by `undo_from_log`
(`renamer.py:133-164`): after loading `sess` from the log file it calls
`undo(folder_path, operations)` — the operations resolve against the
`folder_path` argument; the `directory` field recorded in the session is
never consulted. -/
def undo_from_log (sess : Session) (folder_path : String) : List (RPath × RPath) :=
  undoPlanPaths folder_path sess.operations

/-- Embeds `undo_from_log`'s default `folder_path="./"`
(`renamer.py:133`). -/
def undo_from_log_default (sess : Session) : List (RPath × RPath) :=
  undo_from_log sess "./"

/-- Embeds `match_and_rename_files` (`renamer.py:167-208`).  Pipeline:
enumerate and sort the glob matches; return unchanged when none; build the
rename map; return unchanged when it is empty; return unchanged on
`dry_run`; return unchanged when confirmation is withheld (`confirm` is the
external answer consulted only when `auto_yes` is false); otherwise perform
the renames and, when the whole loop completed, write the session log file
into the directory (`crate_log`).  When `rename` raised, the log is not
written and the exception escapes with the directory as the loop left it.
Result: final directory contents, plus the journaled operations when a
session was written. -/
def match_and_rename_files (fs : FS) (d : String) (sel : String → Bool)
    (tf : String → Option String) (logName : String)
    (dry_run auto_yes confirm : Bool) : FS × Option (List LogEntry) :=
  let matched := matched_files fs sel
  if matched.isEmpty then (fs, none)
  else
    let rename_map := renamed_mapper d fs tf matched
    if rename_map.isEmpty then (fs, none)
    else if dry_run then (fs, none)
    else if !auto_yes && !confirm then (fs, none)
    else
      match rename fs rename_map with
      | (fs', some entries) => (crate_log fs' logName, some entries)
      | (fs', none) => (fs', none)

/-- Helper for `specExtension`: walking the reversed character list of a
filename, collect the characters up to and including the final `.` of the
original name; `none` when the name has no `.`. -/
def takeExtRev : List Char → Option (List Char)
  | [] => none
  | c :: rest =>
    if c = '.' then some [c]
    else (takeExtRev rest).map (fun e => c :: e)

/-- Modelled from the spec: the original extension of a filename, "the
substring from the final `.` onward, or empty if none"; used only to state
the extension-preservation claim against `renamed_mapper`, which itself has
no extension handling. -/
def specExtension (n : String) : String :=
  match takeExtRev n.data.reverse with
  | none => ""
  | some e => String.mk e.reverse

/-- Modelled from the spec: undo processing "in reverse of original
application order" — the behaviour the spec ascribes to `undo`, for
comparison with the source's forward iteration. -/
def undoSpecReverseOrder (fs : FS) (ops : List LogEntry) : FS × List UndoEvent :=
  undo fs ops.reverse

/-- Modelled from the spec: the increment-mode transformer of
`rename_files`, which `src/smart_renamer/cli.py:14-20` imports from the
engine but which is absent from `src/`.  Per spec section 4.2, the counter
starts at the configured value and increments by exactly one per
successfully transformed (non-skipped) file, in the given (already sorted)
candidate order; whether a file is skipped (`NoRegexMatch`,
`PlaceholderError`) does not depend on the counter, so the skip test
`matchf` and the name builder `mk` are separate parameters. -/
def incrementTransform (matchf : String → Bool) (mk : String → Nat → String)
    (counter : Nat) : List String → List (String × String)
  | [] => []
  | f :: rest =>
    if matchf f then
      (f, mk f counter) :: incrementTransform matchf mk (counter + 1) rest
    else
      incrementTransform matchf mk counter rest

/-- Transformer instance realising a rename pattern that sends both
`a1.txt` and `b1.txt` to the same fresh target name `x1.txt` (for example
regex `[ab](1)` with pattern `x1.txt`); other names do not match. -/
def tfCollide : String → Option String :=
  fun n => if n = "a1.txt" || n = "b1.txt" then some "x1.txt" else none

/-- Directory holding exactly the two colliding candidates. -/
def fsCollide : FS := [⟨"a1.txt", false⟩, ⟨"b1.txt", false⟩]

/-- Transformer instance whose output drops the original extension: it
sends `a1.txt` to `x1` (for example regex `a(1)[.]txt` with pattern
`x1`). -/
def tfDropExt : String → Option String :=
  fun n => if n = "a1.txt" then some "x1" else none

/-- Directory for the extension counterexample. -/
def fsDropExt : FS := [⟨"a1.txt", false⟩]

/-- Directory for the batch-abort counterexample: `a.txt` and `c.txt`
exist, `b.txt` (the middle entry's source) has vanished. -/
def fsAbort : FS := [⟨"a.txt", false⟩, ⟨"c.txt", false⟩]

/-- Rename map whose middle entry has a vanished source. -/
def mapAbort : List (RPath × RPath) :=
  [(⟨"d", "a.txt"⟩, ⟨"d", "a2.txt"⟩),
   (⟨"d", "b.txt"⟩, ⟨"d", "b2.txt"⟩),
   (⟨"d", "c.txt"⟩, ⟨"d", "c2.txt"⟩)]

/-- Directory state after a recorded chain `a ➝ b` then `b ➝ c`: only `c`
remains. -/
def fsChain : FS := [⟨"c", false⟩]

/-- Recorded operations of that chained session, in application order. -/
def opsChain : List LogEntry := [⟨"a", "b"⟩, ⟨"b", "c"⟩]

/-- Directory holding fifty session log files `log0` … `log49`. -/
def fsFiftyLogs : FS := (List.range 50).map (fun i => ⟨"log" ++ toString i, false⟩)

/-- Directory with a subdirectory `sub` next to a regular file, both
matching the glob `*`. -/
def fsWithDir : FS := [⟨"sub", true⟩, ⟨"a.txt", false⟩]

/-- Concrete session used to witness the undo path-resolution theorem. -/
def sessDemo : Session :=
  ⟨"2025-01-01T00:00:00", "*", "a(1)", "x1", "/data/photos", [⟨"a1", "x1"⟩]⟩

/-- Same session with a different recorded directory. -/
def sessDemoOther : Session :=
  ⟨"2025-01-01T00:00:00", "*", "a(1)", "x1", "/elsewhere", [⟨"a1", "x1"⟩]⟩

/-- Membership in the rename map built by `renamed_mapper`: exactly the
candidates whose transform succeeds and whose target name is free in the
directory at plan time, paired as paths in the working directory. -/
theorem renamed_mapper_mem (d : String) (fs : FS) (tf : String → Option String)
    (names : List String) (p : RPath × RPath) :
    p ∈ renamed_mapper d fs tf names ↔
      ∃ old new, old ∈ names ∧ tf old = some new ∧ fsExists fs new = false ∧
        p = (⟨d, old⟩, ⟨d, new⟩) := by
  induction names with
  | nil => simp [renamed_mapper]
  | cons o rest ih =>
    cases h : tf o with
    | none =>
      simp only [renamed_mapper, h, ih]
      constructor
      · rintro ⟨old, new, h1, h2, h3, h4⟩
        exact ⟨old, new, List.mem_cons_of_mem _ h1, h2, h3, h4⟩
      · rintro ⟨old, new, h1, h2, h3, h4⟩
        rcases List.mem_cons.mp h1 with rfl | h1'
        · rw [h] at h2; cases h2
        · exact ⟨old, new, h1', h2, h3, h4⟩
    | some nn =>
      by_cases hex : fsExists fs nn = true
      · simp only [renamed_mapper, h, hex, if_true, ih]
        constructor
        · rintro ⟨old, new, h1, h2, h3, h4⟩
          exact ⟨old, new, List.mem_cons_of_mem _ h1, h2, h3, h4⟩
        · rintro ⟨old, new, h1, h2, h3, h4⟩
          rcases List.mem_cons.mp h1 with rfl | h1'
          · rw [h] at h2
            cases h2
            rw [hex] at h3
            cases h3
          · exact ⟨old, new, h1', h2, h3, h4⟩
      · simp only [renamed_mapper, h]
        rw [if_neg hex, List.mem_cons, ih]
        constructor
        · rintro (hp | ⟨old, new, h1, h2, h3, h4⟩)
          · exact ⟨o, nn, List.mem_cons_self o rest, h, Bool.eq_false_iff.mpr hex, hp⟩
          · exact ⟨old, new, List.mem_cons_of_mem _ h1, h2, h3, h4⟩
        · rintro ⟨old, new, h1, h2, h3, h4⟩
          rcases List.mem_cons.mp h1 with rfl | h1'
          · rw [h] at h2
            cases h2
            exact Or.inl h4
          · exact Or.inr ⟨old, new, h1', h2, h3, h4⟩

/-- The log entries returned by `rename` are all-or-nothing: either an
exception escaped the loop and no entry list was returned at all, or every
entry of the map was applied and recorded (by basename) in map order. -/
theorem rename_entries_complete (fs : FS) (rmap : List (RPath × RPath)) :
    (rename fs rmap).2 = none ∨
      (rename fs rmap).2
        = some (rmap.map (fun p => (⟨p.1.base, p.2.base⟩ : LogEntry))) := by
  induction rmap generalizing fs with
  | nil => right; simp [rename]
  | cons p rest ih =>
    obtain ⟨old, new⟩ := p
    by_cases h : fsExists fs old.base = true
    · rcases hr : rename (fsRename fs old.base new.base) rest with ⟨fs2, oe⟩
      have hrec := ih (fsRename fs old.base new.base)
      rw [hr] at hrec
      cases oe with
      | none => left; simp [rename, h, hr]
      | some entries =>
        rcases hrec with hbad | hgood
        · cases hbad
        · right
          simp only [Option.some.injEq] at hgood
          simp [rename, h, hr, hgood]
    · left; simp [rename, h]

/-- Processing a concatenated operation list with `undo` is processing the
first part and then the second from the resulting state, with the reports
concatenated: `undo` walks the recorded operations strictly left to
right. -/
theorem undo_append (fs : FS) (xs ys : List LogEntry) :
    undo fs (xs ++ ys)
      = ((undo (undo fs xs).1 ys).1,
         (undo fs xs).2 ++ (undo (undo fs xs).1 ys).2) := by
  induction xs generalizing fs with
  | nil => simp [undo]
  | cons e rest ih =>
    simp only [List.cons_append, undo]
    by_cases h1 : fsExists fs e.toName = false
    · simp [h1, ih]
    · by_cases h2 : fsExists fs e.fromName = true
      · simp [h1, h2, ih]
      · simp [h1, h2, ih]

/-- Membership in the sorted glob enumeration: exactly the names of
directory entries (of either kind) accepted by the selector. -/
theorem matched_files_mem (fs : FS) (sel : String → Bool) (n : String) :
    n ∈ matched_files fs sel ↔ ∃ e, e ∈ fs ∧ e.name = n ∧ sel n = true := by
  simp only [matched_files, List.mem_mergeSort, List.mem_map, List.mem_filter]
  constructor
  · rintro ⟨e, ⟨he, hsel⟩, rfl⟩
    exact ⟨e, he, rfl, hsel⟩
  · rintro ⟨e, he, rfl, hsel⟩
    exact ⟨e, ⟨he, hsel⟩, rfl⟩

/-- Claim C1 (amended): membership in the plan built by `renamed_mapper` is
characterised by the candidate order-independent condition "the transform
succeeded and the target name was free on the filesystem at plan time".
In particular no within-batch duplicate-target check is applied: nothing in
the condition refers to earlier candidates, so two candidates resolving to
the same fresh target name both enter the plan (see the counterexample). -/
theorem renamed_mapper_plan_characterization (d : String) (fs : FS)
    (tf : String → Option String) (names : List String) (p : RPath × RPath) :
    p ∈ renamed_mapper d fs tf names ↔
      ∃ old new, old ∈ names ∧ tf old = some new ∧ fsExists fs new = false ∧
        p = (⟨d, old⟩, ⟨d, new⟩) :=
  renamed_mapper_mem d fs tf names p

/-- Claim C1, counterexample to the claim as stated: two candidates that
resolve to the same fresh target name `x1.txt` are both kept in the plan —
the second is not skipped as a duplicate target, and the produced plan has
two operations sharing a target. -/
theorem renamed_mapper_duplicate_target_counterexample :
    renamed_mapper "d" fsCollide tfCollide ["a1.txt", "b1.txt"]
      = [(⟨"d", "a1.txt"⟩, ⟨"d", "x1.txt"⟩), (⟨"d", "b1.txt"⟩, ⟨"d", "x1.txt"⟩)]
    ∧ ¬ ((renamed_mapper "d" fsCollide tfCollide ["a1.txt", "b1.txt"]).map Prod.snd).Nodup := by
  decide

/-- Claim C2 (amended): the journal written by the apply path is
all-or-nothing.  `rename` either completes, returning log entries for every
entry of the map in order, or an exception escapes the loop and no entry
list is produced at all — there is no journal of the successful prefix,
and no per-entry failure isolation. -/
theorem rename_journal_all_or_nothing (fs : FS) (rmap : List (RPath × RPath)) :
    (rename fs rmap).2 = none ∨
      (rename fs rmap).2
        = some (rmap.map (fun p => (⟨p.1.base, p.2.base⟩ : LogEntry))) :=
  rename_entries_complete fs rmap

/-- Claim C2, counterexample to the claim as stated: in a three-entry batch
whose middle source has vanished, the first entry is applied (`a2.txt` is
present in the result) but the third is never attempted (`c.txt` is still
there although its own rename would have succeeded), and no entries are
returned for journaling at all. -/
theorem rename_abort_counterexample :
    rename fsAbort mapAbort = ([⟨"c.txt", false⟩, ⟨"a2.txt", false⟩], none)
    ∧ FSEntry.mk "c.txt" false ∈ (rename fsAbort mapAbort).1
    ∧ fsExists fsAbort "c.txt" = true := by
  decide

/-- Claim C3 (amended): `undo` does swap `from`/`to` of each recorded
operation (for one entry, the source is the recorded `to` and the
destination the recorded `from`), but it processes the recorded list in its
original application order, strictly left to right: processing `xs ++ ys`
is processing `xs` and then `ys` from the resulting state. -/
theorem undo_forward_order_and_swap :
    (∀ (fs : FS) (xs ys : List LogEntry),
      undo fs (xs ++ ys)
        = ((undo (undo fs xs).1 ys).1,
           (undo fs xs).2 ++ (undo (undo fs xs).1 ys).2))
    ∧ (∀ (fs : FS) (e : LogEntry),
      undo fs [e]
        = if fsExists fs e.toName = false then (fs, [UndoEvent.missing e.toName])
          else if fsExists fs e.fromName then (fs, [UndoEvent.conflict e.fromName])
          else (fsRename fs e.toName e.fromName,
                [UndoEvent.renamed e.toName e.fromName])) := by
  refine ⟨undo_append, ?_⟩
  intro fs e
  by_cases h1 : fsExists fs e.toName = false
  · simp [undo, h1]
  · by_cases h2 : fsExists fs e.fromName = true
    · simp [undo, h1, h2]
    · simp [undo, h1, h2]

/-- Claim C3, counterexample to the claim as stated: undoing the chained
session `a ➝ b`, `b ➝ c` from the final state `{c}` in the source's forward
order skips the first entry as missing and ends at `{b}`, while the
reverse-order processing the claim describes would restore `{a}`; the two
behaviours differ. -/
theorem undo_reverse_order_counterexample :
    undo fsChain opsChain
      = ([⟨"b", false⟩], [UndoEvent.missing "b", UndoEvent.renamed "c" "b"])
    ∧ undoSpecReverseOrder fsChain opsChain
      = ([⟨"a", false⟩], [UndoEvent.renamed "c" "b", UndoEvent.renamed "b" "a"])
    ∧ undo fsChain opsChain ≠ undoSpecReverseOrder fsChain opsChain := by
  decide

/-- Claim C4: with `dry_run` set, `match_and_rename_files` returns right
after the preview: the directory contents are returned exactly as given
(no rename is performed and no log file is written into the directory) and
no session is journaled, whatever the selector, transformer and
confirmation inputs. -/
theorem match_and_rename_files_dry_run_frame (fs : FS) (d : String)
    (sel : String → Bool) (tf : String → Option String) (logName : String)
    (auto_yes confirm : Bool) :
    match_and_rename_files fs d sel tf logName true auto_yes confirm = (fs, none) := by
  simp only [match_and_rename_files]
  split
  · rfl
  · split
    · rfl
    · simp

/-- Claim C5 (amended): every operation in the plan carries as target
exactly the transformer's output for its source name — `renamed_mapper`
performs no post-processing at all, in particular it never appends the
original extension when the result does not end with it. -/
theorem renamed_mapper_target_verbatim (d : String) (fs : FS)
    (tf : String → Option String) (names : List String) (p : RPath × RPath)
    (h : p ∈ renamed_mapper d fs tf names) :
    tf p.1.base = some p.2.base := by
  rcases (renamed_mapper_mem d fs tf names p).mp h with ⟨old, new, _, h2, _, rfl⟩
  simpa using h2

/-- Witness for `renamed_mapper_target_verbatim` at the concrete plan of
the extension counterexample. -/
theorem renamed_mapper_target_verbatim_witness :
    tfDropExt "a1.txt" = some "x1" :=
  renamed_mapper_target_verbatim "d" fsDropExt tfDropExt ["a1.txt"]
    (⟨"d", "a1.txt"⟩, ⟨"d", "x1"⟩) (by decide)

/-- Claim C5, counterexample to the claim as stated: for input `a1.txt`,
whose original extension is `.txt`, a transform producing `x1` yields the
plan target `x1` unchanged, although `x1` does not end with `.txt` — the
extension is not appended. -/
theorem renamed_mapper_extension_counterexample :
    renamed_mapper "d" fsDropExt tfDropExt ["a1.txt"]
      = [(⟨"d", "a1.txt"⟩, ⟨"d", "x1"⟩)]
    ∧ specExtension "a1.txt" = ".txt"
    ∧ String.endsWith "x1" (specExtension "a1.txt") = false := by
  decide

/-- Claim C6 (spec-modelled): in increment mode the counter starts at the
configured start value and increments by exactly one per non-skipped file
in the given deterministic order — the transformed list pairs the k-th
surviving file with counter value `start + k` — and the spec's example
(start 5, three matched files, an `img_<counter>.png` template) yields
`img_5.png`, `img_6.png`, `img_7.png`. -/
theorem incrementTransform_counter_sequence :
    (∀ (matchf : String → Bool) (mk : String → Nat → String) (start : Nat)
        (files : List String),
      incrementTransform matchf mk start files
        = ((files.filter matchf).zip
            (List.range' start (files.filter matchf).length)).map
            (fun p => (p.1, mk p.1 p.2)))
    ∧ incrementTransform (fun _ => true)
        (fun _ n => "img_" ++ toString n ++ ".png") 5 ["a.png", "b.png", "c.png"]
        = [("a.png", "img_5.png"), ("b.png", "img_6.png"), ("c.png", "img_7.png")] := by
  constructor
  · intro matchf mk start files
    induction files generalizing start with
    | nil => simp [incrementTransform]
    | cons f rest ih =>
      by_cases h : matchf f = true
      · simp only [incrementTransform, h, if_true, List.filter_cons, List.length_cons,
          List.range'_succ, List.zip_cons_cons, List.map_cons, ih]
      · simp only [incrementTransform, List.filter_cons, h, if_false, ih]
        simp [h]
  · decide

/-- Claim C7 (amended): `crate_log` writes each session as its own fresh
log file into the directory and never removes an existing one: every
previous entry (in particular every previous session log) survives, the new
log file is added, and when the new name is fresh the directory grows by
exactly one entry — there is no 50-session cap and no eviction. -/
theorem crate_log_retains_history (fs : FS) (n : String) :
    (∀ e, e ∈ fs → e.name ≠ n → e ∈ crate_log fs n)
    ∧ FSEntry.mk n false ∈ crate_log fs n
    ∧ ((∀ e, e ∈ fs → e.name ≠ n) → (crate_log fs n).length = fs.length + 1) := by
  refine ⟨?_, ?_, ?_⟩
  · intro e he hne
    simp only [crate_log, fsWriteFile, List.mem_append, List.mem_filter]
    left
    exact ⟨he, by simpa [bne_iff_ne] using hne⟩
  · simp [crate_log, fsWriteFile]
  · intro h
    have hf : fs.filter (fun e => e.name != n) = fs := by
      apply List.filter_eq_self.mpr
      intro a ha
      simpa [bne_iff_ne] using h a ha
    simp [crate_log, fsWriteFile, hf]

/-- Witness for `crate_log_retains_history` on a one-file directory and a
fresh log name. -/
theorem crate_log_retains_history_witness :
    FSEntry.mk "a" false ∈ crate_log [⟨"a", false⟩] "b"
    ∧ FSEntry.mk "b" false ∈ crate_log [⟨"a", false⟩] "b"
    ∧ (crate_log [⟨"a", false⟩] "b").length = 2 :=
  ⟨(crate_log_retains_history [⟨"a", false⟩] "b").1 ⟨"a", false⟩ (by decide) (by decide),
   (crate_log_retains_history [⟨"a", false⟩] "b").2.1,
   (crate_log_retains_history [⟨"a", false⟩] "b").2.2 (by decide)⟩

/-- Claim C7, counterexample to the claim as stated: with fifty session
logs already stored, writing a fifty-first leaves fifty-one in place and
the oldest (`log0`) is still there — nothing is evicted. -/
theorem crate_log_unbounded_counterexample :
    fsFiftyLogs.length = 50
    ∧ (crate_log fsFiftyLogs "log50new").length = 51
    ∧ FSEntry.mk "log0" false ∈ crate_log fsFiftyLogs "log50new" := by
  decide

/-- Claim C8: during `undo`, an operation whose reverse source (the
originally applied target) is missing is skipped with a `MissingFile`
report, and one whose reverse target (the originally applied source)
already exists is skipped with a `RestoreConflict` report; in both cases
the directory is left untouched by that entry and every remaining
operation of the session is still processed from the same state. -/
theorem undo_entry_skip_isolated (fs : FS) (pre : List LogEntry) (e : LogEntry)
    (rest : List LogEntry) :
    (fsExists (undo fs pre).1 e.toName = false →
      undo fs (pre ++ e :: rest)
        = ((undo (undo fs pre).1 rest).1,
           (undo fs pre).2
             ++ UndoEvent.missing e.toName :: (undo (undo fs pre).1 rest).2))
    ∧ (fsExists (undo fs pre).1 e.toName = true →
       fsExists (undo fs pre).1 e.fromName = true →
      undo fs (pre ++ e :: rest)
        = ((undo (undo fs pre).1 rest).1,
           (undo fs pre).2
             ++ UndoEvent.conflict e.fromName :: (undo (undo fs pre).1 rest).2)) := by
  constructor
  · intro h
    rw [undo_append]
    have hstep : undo (undo fs pre).1 (e :: rest)
        = ((undo (undo fs pre).1 rest).1,
           UndoEvent.missing e.toName :: (undo (undo fs pre).1 rest).2) := by
      simp [undo, h]
    rw [hstep]
  · intro h1 h2
    rw [undo_append]
    have hstep : undo (undo fs pre).1 (e :: rest)
        = ((undo (undo fs pre).1 rest).1,
           UndoEvent.conflict e.fromName :: (undo (undo fs pre).1 rest).2) := by
      simp [undo, h1, h2]
    rw [hstep]

/-- Witness for `undo_entry_skip_isolated`: a missing reverse source
(first conjunct) and an existing reverse target (second conjunct), each at
a concrete directory and session. -/
theorem undo_entry_skip_isolated_witness :
    (undo [⟨"x", false⟩] ([] ++ (⟨"a", "b"⟩ : LogEntry) :: [⟨"p", "x"⟩])
      = ((undo (undo [⟨"x", false⟩] []).1 [⟨"p", "x"⟩]).1,
         (undo [⟨"x", false⟩] []).2
           ++ UndoEvent.missing "b" :: (undo (undo [⟨"x", false⟩] []).1 [⟨"p", "x"⟩]).2))
    ∧ (undo [⟨"x", false⟩, ⟨"y", false⟩] ([] ++ (⟨"y", "x"⟩ : LogEntry) :: [])
      = ((undo (undo [⟨"x", false⟩, ⟨"y", false⟩] []).1 []).1,
         (undo [⟨"x", false⟩, ⟨"y", false⟩] []).2
           ++ UndoEvent.conflict "y" :: (undo (undo [⟨"x", false⟩, ⟨"y", false⟩] []).1 []).2)) :=
  ⟨(undo_entry_skip_isolated [⟨"x", false⟩] [] ⟨"a", "b"⟩ [⟨"p", "x"⟩]).1 (by decide),
   (undo_entry_skip_isolated [⟨"x", false⟩, ⟨"y", false⟩] [] ⟨"y", "x"⟩ []).2
     (by decide) (by decide)⟩

/-- Claim C9 (amended): the candidate enumeration yields exactly the names
of directory entries accepted by the glob selector, regardless of their
kind — only actual entries are yielded, but directories are not filtered
out. -/
theorem matched_files_membership (fs : FS) (sel : String → Bool) (n : String) :
    n ∈ matched_files fs sel ↔ ∃ e, e ∈ fs ∧ e.name = n ∧ sel n = true :=
  matched_files_mem fs sel n

/-- Claim C9, counterexample to the claim as stated: with a subdirectory
`sub` present and a match-all selector, `sub` is in the candidate list
although it is a directory. -/
theorem matched_files_directory_counterexample :
    "sub" ∈ matched_files fsWithDir (fun _ => true)
    ∧ fsIsDir fsWithDir "sub" = true := by
  constructor
  · exact (matched_files_mem fsWithDir (fun _ => true) "sub").mpr
      ⟨⟨"sub", true⟩, by decide, rfl, rfl⟩
  · decide

/-- Claim C10: journaled operations record only basenames — when `rename`
completes, its entries are exactly the base components of the plan's source
and target paths — and `undo_from_log` resolves those basenames against its
`folder_path` argument (default `./`): every resolved path lives in
`folder_path`, and the result is independent of the `directory` recorded in
the session. -/
theorem journal_basenames_undo_resolution :
    (∀ (fs : FS) (rmap : List (RPath × RPath)) (fs' : FS) (es : List LogEntry),
        rename fs rmap = (fs', some es) →
          es = rmap.map (fun p => (⟨p.1.base, p.2.base⟩ : LogEntry)))
    ∧ (∀ (sess : Session) (folder : String) (p : RPath × RPath),
        p ∈ undo_from_log sess folder → p.1.dir = folder ∧ p.2.dir = folder)
    ∧ (∀ (s₁ s₂ : Session) (folder : String),
        s₁.operations = s₂.operations →
          undo_from_log s₁ folder = undo_from_log s₂ folder)
    ∧ (∀ sess : Session,
        undo_from_log_default sess = undoPlanPaths "./" sess.operations) := by
  refine ⟨?_, ?_, ?_, ?_⟩
  · intro fs rmap fs' es h
    have hc := rename_entries_complete fs rmap
    rw [h] at hc
    rcases hc with h1 | h1
    · cases h1
    · simpa using h1
  · intro sess folder p hp
    simp only [undo_from_log, undoPlanPaths, List.mem_map] at hp
    obtain ⟨e, _, rfl⟩ := hp
    exact ⟨rfl, rfl⟩
  · intro s1 s2 folder h
    simp [undo_from_log, undoPlanPaths, h]
  · intro sess
    rfl

/-- Witness for `journal_basenames_undo_resolution`: a one-entry batch in
`/data/photos` journals the basenames `a1`/`x1`, its undo paths resolve in
the `./` passed to `undo_from_log`, and two sessions differing only in
their recorded directory undo identically. -/
theorem journal_basenames_undo_resolution_witness :
    ([⟨"a1", "x1"⟩] : List LogEntry)
        = ([(⟨"/data/photos", "a1"⟩, ⟨"/data/photos", "x1"⟩)] : List (RPath × RPath)).map
            (fun p => (⟨p.1.base, p.2.base⟩ : LogEntry))
    ∧ (((⟨"./", "x1"⟩, ⟨"./", "a1"⟩) : RPath × RPath).1.dir = "./"
        ∧ ((⟨"./", "x1"⟩, ⟨"./", "a1"⟩) : RPath × RPath).2.dir = "./")
    ∧ undo_from_log sessDemo "./" = undo_from_log sessDemoOther "./" :=
  ⟨journal_basenames_undo_resolution.1 [⟨"a1", false⟩]
      [(⟨"/data/photos", "a1"⟩, ⟨"/data/photos", "x1"⟩)] [⟨"x1", false⟩] [⟨"a1", "x1"⟩]
      (by decide),
   journal_basenames_undo_resolution.2.1 sessDemo "./" (⟨"./", "x1"⟩, ⟨"./", "a1"⟩)
      (by decide),
   journal_basenames_undo_resolution.2.2.1 sessDemo sessDemoOther "./" rfl⟩
